import Mathlib

/-
Verification of the calendar CLI (src/calendar.go) against its design
specification. The program resolves a date window from flags, obtains an
OAuth credential from a file cache, queries a paged events API and streams
each event as a CSV row. Time instants are modelled as integers; RFC3339
parsing and formatting are abstracted as function parameters, since the
source delegates them to the standard library.
-/

namespace Calendar

/-- Fatal errors raised while resolving the date window in main
(calendar.go lines 101-123): a start parse failure (line 106), an end
parse failure (line 116), or the range check failure (line 122), which
carries both formatted instants. -/
inductive ResolveError where
| parseStartFailed
| parseEndFailed
| rangeError (startFormatted endFormatted : String)
deriving DecidableEq

/-- Date-window resolution from main, calendar.go lines 101-123, with
`now`, RFC3339 parsing and formatting abstracted. `dateStart` and
`dateEnd` start at the zero time, modelled as 0. Line 109 adds the
`from` span to the end accumulator before the end branch assigns it;
line 119 adds the `to` span; line 121 requires the end to be strictly
after the start. -/
def resolveWindow (now : Int) (parse : String → Option Int) (fmt : Int → String)
(dateStartString dateEndString : String) (dateFromSpan dateToSpan : Int) :
Except ResolveError (Int × Int) :=
  let dateEnd : Int := 0
  let startStep : Except ResolveError Int :=
    if dateStartString = "" then .ok now
    else match parse dateStartString with
      | none => .error .parseStartFailed
      | some t => .ok t
  match startStep with
  | .error e => .error e
  | .ok dateStart =>
    let dateEnd := dateEnd + dateFromSpan
    let endStep : Except ResolveError Int :=
      if dateEndString = "" then .ok now
      else match parse dateEndString with
        | none => .error .parseEndFailed
        | some t => .ok t
    match endStep with
    | .error e => .error e
    | .ok dateEndAssigned =>
      let dateEnd := dateEndAssigned + dateToSpan
      if dateEnd ≤ dateStart then
        .error (.rangeError (fmt dateStart) (fmt dateEnd))
      else
        .ok (dateStart, dateEnd)

/-- The start instant actually selected by lines 101-108: `now` when the
start string is absent, otherwise its parse. -/
def startInstant (now : Int) (parse : String → Option Int) (s : String) : Option Int :=
  if s = "" then some now else parse s

/-- The end instant actually selected by lines 111-119: `now` when the
end string is absent, otherwise its parse, plus the `to` span. -/
def endInstant (now : Int) (parse : String → Option Int) (s : String) (toSpan : Int) :
Option Int :=
  (if s = "" then some now else parse s).map (fun t => t + toSpan)

/-- The query built by main at calendar.go lines 145-147:
`srv.Events.List("primary").ShowDeleted(false).SingleEvents(true)
.TimeMin(start.Format(RFC3339)).TimeMax(end.Format(RFC3339))
.MaxResults(10).OrderBy("startTime")`. -/
structure ListQuery where
  calendarId : String
  showDeleted : Bool
  singleEvents : Bool
  timeMin : String
  timeMax : String
  maxResults : Nat
  orderBy : String
deriving DecidableEq

/-- Fatal outcomes of main before any page is received: a resolve error
(lines 101-123) or a failure reading the client secret / building the
client (lines 125-140). -/
inductive MainError where
| resolveFatal (e : ResolveError)
| credsFatal
deriving DecidableEq

/-- The run of main up to the point the list query is issued
(calendar.go lines 84-147): resolve the window, then (if the credential
material loads, abstracted as `credsOk`) build the list query. The
`limit` flag is declared at line 93 but never used afterwards. -/
def mainRun (now : Int) (parse : String → Option Int) (fmt : Int → String)
(limit : Int) (credsOk : Bool)
(dateStartString dateEndString : String) (dateFromSpan dateToSpan : Int) :
Except MainError ListQuery :=
  let _ := limit
  match resolveWindow now parse fmt dateStartString dateEndString dateFromSpan dateToSpan with
  | .error e => .error (.resolveFatal e)
  | .ok (dateStart, dateEnd) =>
    if credsOk then
      .ok { calendarId := "primary", showDeleted := false, singleEvents := true,
            timeMin := fmt dateStart, timeMax := fmt dateEnd,
            maxResults := 10, orderBy := "startTime" }
    else .error .credsFatal

/-- The start field of a calendar event: `Start.Date` (date only) and
`Start.DateTime` (precise timestamp). -/
structure EventDateTime where
  date : String
  dateTime : String
deriving DecidableEq

/-- A calendar event as used by the program: its start field and its
summary. -/
structure Event where
  start : EventDateTime
  summary : String
deriving DecidableEq

/-- The CSV writer, modelled by its pending buffer and the rows already
flushed to the underlying stream. `csv.NewWriter` starts both empty. -/
structure CsvWriter where
  buffer : List (List String)
  out : List (List String)
deriving DecidableEq

/-- A fresh CSV writer over the output stream (calendar.go line 169). -/
def csvNewWriter : CsvWriter := { buffer := [], out := [] }

/-- `csv.Writer.Write`: appends one record to the buffer, or fails when
the underlying stream write fails; the fault model `fail` says which
records the underlying stream rejects. -/
def csvWrite (fail : List String → Bool) (w : CsvWriter) (row : List String) :
Except Unit CsvWriter :=
  if fail row then .error () else .ok { w with buffer := w.buffer ++ [row] }

/-- `csv.Writer.Flush`: moves the buffered records to the underlying
stream. -/
def csvFlush (w : CsvWriter) : CsvWriter :=
  { buffer := [], out := w.out ++ w.buffer }

/-- `WriteEvent` from calendar.go lines 153-160: take `item.Start.DateTime`,
fall back to `item.Start.Date` when it is empty, and write the two-field
record `(date, summary)`. -/
def WriteEvent (fail : List String → Bool) (w : CsvWriter) (item : Event) :
Except Unit CsvWriter :=
  let date := item.start.dateTime
  let date := if date = "" then item.start.date else date
  csvWrite fail w [date, item.summary]

/-- The record that `WriteEvent` writes for an event. -/
def eventRow (item : Event) : List String :=
  [if item.start.dateTime = "" then item.start.date else item.start.dateTime,
   item.summary]

/-- The collector counters from calendar.go lines 162-166. -/
structure EventCollector where
  pageCounter : Int
  itemCounter : Int
deriving DecidableEq

/-- The error a page callback can return: the context error observed at
the page boundary (line 172), or the write error from `WriteEvent`
(line 179). -/
inductive CbError where
| ctxCancelled
| writeFailed
deriving DecidableEq

/-- The per-item loop of the callback, calendar.go lines 176-182: write
the event, stop with the error if the write fails, otherwise flush and
continue with the next item. -/
def writeItems (fail : List String → Bool) :
CsvWriter → List Event → CsvWriter × Option CbError
| w, [] => (w, none)
| w, item :: rest =>
  match WriteEvent fail w item with
  | .error _ => (w, some .writeFailed)
  | .ok w2 => writeItems fail (csvFlush w2) rest

/-- One invocation of the closure returned by `EventCollector.WriteCallback`
(calendar.go lines 170-184) on a page: if the context has an error,
return it at once; otherwise increment the page counter, add the page
size to the item counter, and run the per-item loop. -/
def writeCallback (fail : List String → Bool) (ctxErr : Bool)
(c : EventCollector) (w : CsvWriter) (page : List Event) :
EventCollector × CsvWriter × Option CbError :=
  if ctxErr then (c, w, some .ctxCancelled)
  else
    let c2 : EventCollector :=
      { pageCounter := c.pageCounter + 1, itemCounter := c.itemCounter + page.length }
    let r := writeItems fail w page
    (c2, r.1, r.2)

/-- The pages driver (`Pages` at calendar.go line 147): hand each page
to the callback in order, stopping at the first callback error, which
becomes the terminal error of the run. The context is cancelled from
page index `cancelAt` onwards (`none` means never cancelled). -/
def runPages (fail : List String → Bool) (cancelAt : Option Nat) :
Nat → EventCollector → CsvWriter → List (List Event) →
EventCollector × CsvWriter × Option CbError
| _, c, w, [] => (c, w, none)
| i, c, w, p :: rest =>
  let ctxErr := match cancelAt with
    | none => false
    | some k => decide (k ≤ i)
  let r := writeCallback fail ctxErr c w p
  match r.2.2 with
  | some e => (r.1, r.2.1, some e)
  | none => runPages fail cancelAt (i + 1) r.1 r.2.1 rest

/-- A full collection run: fresh zeroed collector (line 142), fresh CSV
writer, pages handed to the callback starting at index 0. -/
def collectRun (fail : List String → Bool) (cancelAt : Option Nat)
(pages : List (List Event)) : EventCollector × CsvWriter × Option CbError :=
  runPages fail cancelAt 0 { pageCounter := 0, itemCounter := 0 } csvNewWriter pages

/-- A serialized JSON field value of the token file: a string or a
serialized time instant. -/
inductive JVal where
| str (s : String)
| time (t : Int)
deriving DecidableEq

/-- The OAuth token as serialized by `saveToken` / read by
`tokenFromFile`: access token, token type, refresh token, expiry. -/
structure Token where
  accessToken : String
  tokenType : String
  refreshToken : String
  expiry : Int
deriving DecidableEq

/-- `json.NewEncoder(f).Encode(token)` at calendar.go line 73: the
structured serialization of the token fields; the string fields tagged
omitempty are omitted when empty. -/
def encodeToken (tok : Token) : List (String × JVal) :=
  [("access_token", .str tok.accessToken)]
  ++ (if tok.tokenType = "" then [] else [("token_type", .str tok.tokenType)])
  ++ (if tok.refreshToken = "" then [] else [("refresh_token", .str tok.refreshToken)])
  ++ [("expiry", .time tok.expiry)]

/-- Read a string field while decoding: an absent field keeps the zero
value, a field of the wrong shape is a decode error. -/
def getStr (doc : List (String × JVal)) (key : String) : Option String :=
  match doc.lookup key with
  | none => some ""
  | some (.str s) => some s
  | some _ => none

/-- Read the serialized time field while decoding: an absent field keeps
the zero value, a field of the wrong shape is a decode error. -/
def getTime (doc : List (String × JVal)) (key : String) : Option Int :=
  match doc.lookup key with
  | none => some 0
  | some (.time t) => some t
  | some _ => none

/-- `json.NewDecoder(f).Decode(tok)` at calendar.go line 61: decode a
token starting from the zero token, failing when a present field has the
wrong shape. -/
def decodeToken (doc : List (String × JVal)) : Option Token :=
  match getStr doc "access_token", getStr doc "token_type",
        getStr doc "refresh_token", getTime doc "expiry" with
  | some a, some tt, some rt, some e =>
    some { accessToken := a, tokenType := tt, refreshToken := rt, expiry := e }
  | _, _, _, _ => none

/-- `saveToken` from calendar.go lines 66-74 over a file-system map from
paths to serialized documents: truncate-create the file at `path` and
encode the token into it. -/
def saveToken (fs : String → Option (List (String × JVal))) (path : String)
(token : Token) : String → Option (List (String × JVal)) :=
  fun p => if p = path then some (encodeToken token) else fs p

/-- `tokenFromFile` from calendar.go lines 54-63: open the file (error
when absent) and decode a token from it. -/
def tokenFromFile (fs : String → Option (List (String × JVal))) (file : String) :
Except Unit Token :=
  match fs file with
  | none => .error ()
  | some doc =>
    match decodeToken doc with
    | none => .error ()
    | some tok => .ok tok

/-- `resolveWindow` characterized through the selected start and end
instants: the dead addition of the `from` span to the zero end
accumulator vanishes, and the final check compares the selected end
against the selected start. -/
theorem resolveWindow_eq (now : Int) (parse : String → Option Int) (fmt : Int → String)
(ss es : String) (f t : Int) :
    resolveWindow now parse fmt ss es f t =
      match startInstant now parse ss with
      | none => .error .parseStartFailed
      | some s =>
        match endInstant now parse es t with
        | none => .error .parseEndFailed
        | some e =>
          if e ≤ s then .error (.rangeError (fmt s) (fmt e)) else .ok (s, e) := by
  unfold resolveWindow startInstant endInstant
  by_cases h1 : ss = "" <;> by_cases h2 : es = "" <;>
    simp [h1, h2] <;> cases parse ss <;> cases parse es <;> simp

/-- An RFC3339 parse function used for concrete evaluations: it accepts
exactly two timestamps, mapping them to the instants 100 and 1000. -/
def parseEx : String → Option Int := fun s =>
  if s = "2024-01-01T10:00:00Z" then some 100
  else if s = "2024-01-02T10:00:00Z" then some 1000
  else none

/-- A formatting function used for concrete evaluations. -/
def fmtEx : Int → String := fun t => toString t

/-- Claim C1: refuted on the code (code bug). With the start flag parsed
to instant 100, the end flag parsed to 1000 and a `from` span of 7, the
resolved window start is 100 — the parsed start with no offset applied —
although the claim requires 100 + 7. Line 109 adds the `from` span to
the end accumulator, which lines 111-118 overwrite in both branches; the
span never reaches the start. -/
theorem C1_from_offset_never_applied_to_start :
    resolveWindow 0 parseEx fmtEx "2024-01-01T10:00:00Z" "2024-01-02T10:00:00Z" 7 0 =
      .ok (100, 1000) ∧ (100 : Int) + 7 ≠ 100 := ⟨rfl, by decide⟩

/-- Claim C10: the `-from` flag has no effect. For any two values of the
`from` span, both the resolved window and the whole run of main up to
the list query are identical: the only use of the span is the addition
to the end accumulator at line 109, always overwritten before the window
is validated. -/
theorem C10_from_flag_no_effect (now : Int) (parse : String → Option Int)
(fmt : Int → String) (limit : Int) (credsOk : Bool) (ss es : String) (f1 f2 t : Int) :
    resolveWindow now parse fmt ss es f1 t = resolveWindow now parse fmt ss es f2 t ∧
    mainRun now parse fmt limit credsOk ss es f1 t =
      mainRun now parse fmt limit credsOk ss es f2 t :=
  ⟨rfl, rfl⟩

/-- Claim C4: for every event, the emitted record has exactly two fields
(date, summary); the date is the precise `Start.DateTime` when that
field is non-empty and the date-only `Start.Date` otherwise. -/
theorem C4_record_two_fields (w : CsvWriter) (item : Event) :
    WriteEvent (fun _ => false) w item =
      .ok { buffer := w.buffer ++ [eventRow item], out := w.out } ∧
    (eventRow item).length = 2 ∧
    (item.start.dateTime ≠ "" → eventRow item = [item.start.dateTime, item.summary]) ∧
    (item.start.dateTime = "" → eventRow item = [item.start.date, item.summary]) := by
  refine ⟨rfl, rfl, ?_, ?_⟩ <;> intro h <;> simp [eventRow, h]

/-- An event with a precise timestamp, from spec §8 test 8. -/
def evStandup : Event :=
  { start := { date := "", dateTime := "2024-01-02T10:00:00Z" }, summary := "Standup" }

/-- An all-day event with only the date-only field, from spec §8 test 8. -/
def evHoliday : Event :=
  { start := { date := "2024-01-03", dateTime := "" }, summary := "Holiday" }

/-- Witness for claim C4 at the concrete event `evStandup`. -/
theorem C4_record_two_fields_witness :
    WriteEvent (fun _ => false) csvNewWriter evStandup =
      .ok { buffer := [["2024-01-02T10:00:00Z", "Standup"]], out := [] } ∧
    eventRow evStandup = ["2024-01-02T10:00:00Z", "Standup"] := by
  have h := C4_record_two_fields csvNewWriter evStandup
  refine ⟨?_, ?_⟩
  · simpa [csvNewWriter, eventRow, evStandup] using h.1
  · simpa [evStandup] using h.2.2.1 (by decide)

/-- Decoding the serialization of a token recovers the token exactly,
in every combination of omitted empty fields. -/
theorem decode_encode (tok : Token) : decodeToken (encodeToken tok) = some tok := by
  rcases tok with ⟨a, tt, rt, e⟩
  by_cases h1 : tt = "" <;> by_cases h2 : rt = "" <;>
    simp [encodeToken, decodeToken, getStr, getTime, List.lookup, h1, h2]

/-- Claim C9: saving a token to a path and loading from the same path
yields the token back, field for field, for every file system, path and
token. -/
theorem C9_token_roundtrip (fs : String → Option (List (String × JVal)))
(path : String) (tok : Token) :
    tokenFromFile (saveToken fs path tok) path = .ok tok := by
  simp [tokenFromFile, saveToken, decode_encode]

/-- `WriteEvent` is `csv.Writer.Write` applied to the row of the event. -/
theorem WriteEvent_eq (fail : List String → Bool) (w : CsvWriter) (item : Event) :
    WriteEvent fail w item = csvWrite fail w (eventRow item) := rfl

/-- When no underlying write fails and the buffer starts empty, the item
loop flushes every row in order and reports no error. -/
theorem writeItems_ok (items : List Event) (w : CsvWriter) (hw : w.buffer = []) :
    writeItems (fun _ => false) w items =
      ({ buffer := [], out := w.out ++ items.map eventRow }, none) := by
  induction items generalizing w with
  | nil =>
    rcases w with ⟨b, o⟩
    simp only at hw
    subst hw
    simp [writeItems]
  | cons item rest ih =>
    rcases w with ⟨b, o⟩
    simp only at hw
    subst hw
    rw [writeItems, WriteEvent_eq]
    simp only [csvWrite, Bool.false_eq_true, if_false, List.nil_append, csvFlush]
    rw [ih { buffer := [], out := o ++ [eventRow item] } rfl]
    simp

/-- An uncancelled page with no write failure: counters advance by
(1, page length), the rows of the page are flushed in order, no error. -/
theorem writeCallback_ok (c : EventCollector) (w : CsvWriter) (page : List Event)
(hw : w.buffer = []) :
    writeCallback (fun _ => false) false c w page =
      ({ pageCounter := c.pageCounter + 1,
         itemCounter := c.itemCounter + (page.length : Int) },
       { buffer := [], out := w.out ++ page.map eventRow }, none) := by
  simp [writeCallback, writeItems_ok page w hw]

/-- A callback invocation with the context already cancelled returns the
context error and leaves counters and writer untouched. -/
theorem writeCallback_cancelled (fail : List String → Bool) (c : EventCollector)
(w : CsvWriter) (page : List Event) :
    writeCallback fail true c w page = (c, w, some .ctxCancelled) := rfl

/-- Driving every page with no cancellation and no write failure:
counters advance by (number of pages, total items), all rows are
flushed in cross-page order, no error. -/
theorem runPages_ok (pages : List (List Event)) (i : Nat) (c : EventCollector)
(w : CsvWriter) (hw : w.buffer = []) :
    runPages (fun _ => false) none i c w pages =
      ({ pageCounter := c.pageCounter + (pages.length : Int),
         itemCounter := c.itemCounter + (((pages.map List.length).sum : Nat) : Int) },
       { buffer := [], out := w.out ++ (pages.flatten).map eventRow }, none) := by
  induction pages generalizing i c w with
  | nil =>
    rcases c with ⟨pc, ic⟩
    rcases w with ⟨b, o⟩
    simp only at hw
    subst hw
    simp [runPages]
  | cons p rest ih =>
    rw [runPages]
    simp only [writeCallback_ok c w p hw]
    rw [ih (i + 1) _ _ rfl]
    refine Prod.ext ?_ (Prod.ext ?_ rfl)
    · simp only [EventCollector.mk.injEq, List.length_cons, List.map_cons,
        List.sum_cons]
      constructor <;> push_cast <;> ring
    · simp [List.flatten, List.map_append, List.append_assoc]

/-- Claim C2: with no cancellation and no write failure, a run over N
pages with M items in total ends with counters (N, M), an empty buffer
and exactly the M rows in original cross-page order; moreover, in every
uncancelled callback invocation the page counter and the item counter
are already advanced by (1, page length) whatever the item writes do,
so the item count is added before any item of the page is written. -/
theorem C2_counters_and_rows (pages : List (List Event)) :
    collectRun (fun _ => false) none pages =
      ({ pageCounter := (pages.length : Int),
         itemCounter := (((pages.map List.length).sum : Nat) : Int) },
       { buffer := [], out := (pages.flatten).map eventRow }, none) ∧
    ∀ (fail : List String → Bool) (c : EventCollector) (w : CsvWriter)
      (page : List Event),
      (writeCallback fail false c w page).1.itemCounter =
        c.itemCounter + (page.length : Int) ∧
      (writeCallback fail false c w page).1.pageCounter = c.pageCounter + 1 := by
  constructor
  · have h := runPages_ok pages 0 { pageCounter := 0, itemCounter := 0 } csvNewWriter rfl
    simpa [collectRun, csvNewWriter] using h
  · intro fail c w page
    exact ⟨rfl, rfl⟩

/-- Driving pages with the context cancelled from page index m onwards
(the cancellation point lying within the page list): exactly the pages
before index m are processed, their rows flushed in order, and the
terminal error is the context cancellation. -/
theorem runPages_cancel (pages : List (List Event)) (i m : Nat) (c : EventCollector)
(w : CsvWriter) (hw : w.buffer = []) (him : i ≤ m) (hm : m < i + pages.length) :
    runPages (fun _ => false) (some m) i c w pages =
      ({ pageCounter := c.pageCounter + ((m - i : Nat) : Int),
         itemCounter := c.itemCounter + ((((pages.take (m - i)).map List.length).sum : Nat) : Int) },
       { buffer := [], out := w.out ++ ((pages.take (m - i)).flatten).map eventRow },
       some .ctxCancelled) := by
  induction pages generalizing i c w with
  | nil =>
    exfalso
    simp only [List.length_nil] at hm
    omega
  | cons p rest ih =>
    by_cases he : m ≤ i
    · have hmi : m = i := le_antisymm he him
      subst hmi
      rcases c with ⟨pc, ic⟩
      rcases w with ⟨b, o⟩
      simp only at hw
      subst hw
      simp [runPages, writeCallback_cancelled, Nat.sub_self]
    · have hlt : i < m := lt_of_not_le he
      have hd : m - i = (m - (i + 1)) + 1 := by omega
      rw [runPages]
      have hctx : (decide (m ≤ i)) = false := by simp [he]
      simp only [hctx, Bool.false_eq_true, if_false]
      simp only [writeCallback_ok c w p hw]
      rw [ih (i + 1) _ _ rfl (by omega) (by simp at hm ⊢; omega)]
      rw [hd, List.take_succ_cons]
      refine Prod.ext ?_ (Prod.ext ?_ rfl)
      · simp only [EventCollector.mk.injEq, List.map_cons, List.sum_cons]
        constructor <;> push_cast <;> ring
      · simp [List.flatten, List.map_append, List.append_assoc]

/-- Claim C3: if the context is cancelled before page k (1-indexed,
k ≤ N) is handed to the callback, then the run has flushed exactly the
rows of pages 1..k-1 in order — no row of page k or later — and the
terminal error is the context cancellation. -/
theorem C3_cancellation (pages : List (List Event)) (k : Nat)
(hk1 : 1 ≤ k) (hkN : k ≤ pages.length) :
    (collectRun (fun _ => false) (some (k - 1)) pages).2.1.out =
      ((pages.take (k - 1)).flatten).map eventRow ∧
    (collectRun (fun _ => false) (some (k - 1)) pages).2.2 =
      some .ctxCancelled := by
  have h := runPages_cancel pages 0 (k - 1) { pageCounter := 0, itemCounter := 0 }
    csvNewWriter rfl (Nat.zero_le _) (by omega)
  rw [collectRun, h]
  exact ⟨rfl, rfl⟩

/-- Witness for claim C3: two pages, cancellation before page 1; no row
is emitted and the run ends with the cancellation error. -/
theorem C3_cancellation_witness :
    (collectRun (fun _ => false) (some 0) [[evStandup], [evHoliday]]).2.1.out = [] ∧
    (collectRun (fun _ => false) (some 0) [[evStandup], [evHoliday]]).2.2 =
      some CbError.ctxCancelled := by
  have h := C3_cancellation [[evStandup], [evHoliday]] 1 (by decide) (by decide)
  simpa using h

/-- The item loop returns the write error as soon as some row of the
page is rejected by the underlying stream. -/
theorem writeItems_fails (fail : List String → Bool) (items : List Event)
(w : CsvWriter) (hfail : ∃ it ∈ items, fail (eventRow it) = true) :
    (writeItems fail w items).2 = some .writeFailed := by
  induction items generalizing w with
  | nil => simp at hfail
  | cons item rest ih =>
    rw [writeItems, WriteEvent_eq]
    by_cases hh : fail (eventRow item) = true
    · simp [csvWrite, hh]
    · simp only [csvWrite, hh, Bool.false_eq_true, if_false]
      rcases hfail with ⟨it, hmem, hit⟩
      rcases List.mem_cons.mp hmem with h1 | h1
      · subst h1; exact absurd hit hh
      · exact ih _ ⟨it, h1, hit⟩

/-- Claim C8: the writer is flushed immediately after each single
record — after a successful write of one item the flushed output
already contains its row before the rest of the page is handled — and
whenever the underlying stream rejects some row of a page, the page
callback returns the write error. -/
theorem C8_flush_per_record_and_write_failure (fail : List String → Bool)
(w : CsvWriter) (item : Event) (rest : List Event) (c : EventCollector)
(page : List Event)
(hok : fail (eventRow item) = false) (hw : w.buffer = [])
(hfail : ∃ it ∈ page, fail (eventRow it) = true) :
    writeItems fail w (item :: rest) =
      writeItems fail { buffer := [], out := w.out ++ [eventRow item] } rest ∧
    (writeCallback fail false c w page).2.2 = some .writeFailed := by
  constructor
  · rcases w with ⟨b, o⟩
    simp only at hw
    subst hw
    rw [writeItems, WriteEvent_eq]
    simp [csvWrite, csvFlush, hok]
  · exact writeItems_fails fail page w hfail

/-- A fault model for concrete evaluations: the underlying stream
rejects exactly the row of `evHoliday`. -/
def failEx : List String → Bool := fun row => decide (row = ["2024-01-03", "Holiday"])

/-- Witness for claim C8: writing `evStandup` flushes its row at once,
and a page containing `evHoliday` — whose row the stream rejects —
makes the callback return the write error. -/
theorem C8_flush_per_record_and_write_failure_witness :
    writeItems failEx csvNewWriter [evStandup] =
      writeItems failEx
        { buffer := [], out := [["2024-01-02T10:00:00Z", "Standup"]] } [] ∧
    (writeCallback failEx false { pageCounter := 0, itemCounter := 0 } csvNewWriter
      [evHoliday]).2.2 = some CbError.writeFailed := by
  have h := C8_flush_per_record_and_write_failure failEx csvNewWriter evStandup []
    { pageCounter := 0, itemCounter := 0 } [evHoliday] (by decide) rfl
    ⟨evHoliday, by simp, by decide⟩
  simpa [csvNewWriter, eventRow, evStandup] using h

/-- Claim C5: for explicit start and end strings that parse to instants
with end strictly after start, zero offsets leave the resolved window
exactly (start, end). -/
theorem C5_zero_offsets (now ts te : Int) (parse : String → Option Int)
(fmt : Int → String) (ss es : String)
(hss : ss ≠ "") (hes : es ≠ "") (hps : parse ss = some ts) (hpe : parse es = some te)
(hlt : ts < te) :
    resolveWindow now parse fmt ss es 0 0 = .ok (ts, te) := by
  rw [resolveWindow_eq]
  simp [startInstant, endInstant, hss, hes, hps, hpe, not_le.mpr hlt]

/-- Witness for claim C5 at two concrete timestamps parsing to 100 and
1000. -/
theorem C5_zero_offsets_witness :
    resolveWindow 0 parseEx fmtEx "2024-01-01T10:00:00Z" "2024-01-02T10:00:00Z" 0 0 =
      .ok (100, 1000) :=
  C5_zero_offsets 0 100 1000 parseEx fmtEx _ _ (by decide) (by decide) rfl rfl
    (by decide)

/-- Claim C6: whenever the selected end instant is not strictly after
the selected start instant, resolution fails with the range error
carrying both formatted instants, and the run never reaches the list
query, so no network call is made. -/
theorem C6_range_error_no_query (now s e0 : Int) (parse : String → Option Int)
(fmt : Int → String) (limit : Int) (credsOk : Bool) (ss es : String) (f t : Int)
(hs : startInstant now parse ss = some s)
(he : endInstant now parse es t = some e0)
(hle : e0 ≤ s) :
    resolveWindow now parse fmt ss es f t =
      .error (.rangeError (fmt s) (fmt e0)) ∧
    ∀ q : ListQuery, mainRun now parse fmt limit credsOk ss es f t ≠ .ok q := by
  have h1 : resolveWindow now parse fmt ss es f t =
      .error (.rangeError (fmt s) (fmt e0)) := by
    rw [resolveWindow_eq, hs, he]
    simp [hle]
  refine ⟨h1, ?_⟩
  intro q hq
  simp [mainRun, h1] at hq

/-- Witness for claim C6: end parsed to 100, start parsed to 1000; the
resolver reports the range error with both formatted instants and main
yields no query. -/
theorem C6_range_error_no_query_witness :
    resolveWindow 0 parseEx fmtEx "2024-01-02T10:00:00Z" "2024-01-01T10:00:00Z" 0 0 =
      .error (.rangeError (fmtEx 1000) (fmtEx 100)) ∧
    ∀ q : ListQuery,
      mainRun 0 parseEx fmtEx 250 true "2024-01-02T10:00:00Z" "2024-01-01T10:00:00Z"
        0 0 ≠ .ok q :=
  C6_range_error_no_query 0 1000 100 parseEx fmtEx 250 true _ _ 0 0 rfl rfl
    (by decide)

/-- Claim C7: every query main issues goes to the primary calendar,
excludes deleted entries, expands recurring events into single
instances, bounds results by the formatted resolved window, orders by
start time, and asks for a fixed page size of 10 — the same query for
every value of the limit flag. -/
theorem C7_query_shape (now : Int) (parse : String → Option Int) (fmt : Int → String)
(limit : Int) (credsOk : Bool) (ss es : String) (f t : Int) (q : ListQuery)
(h : mainRun now parse fmt limit credsOk ss es f t = .ok q) :
    q.calendarId = "primary" ∧ q.showDeleted = false ∧ q.singleEvents = true ∧
    q.orderBy = "startTime" ∧ q.maxResults = 10 ∧
    (∃ s e, resolveWindow now parse fmt ss es f t = .ok (s, e) ∧
      q.timeMin = fmt s ∧ q.timeMax = fmt e) ∧
    ∀ limit2 : Int, mainRun now parse fmt limit2 credsOk ss es f t = .ok q := by
  unfold mainRun at h
  cases hr : resolveWindow now parse fmt ss es f t with
  | error e =>
    rw [hr] at h
    simp at h
  | ok p =>
    rcases p with ⟨s, e⟩
    rw [hr] at h
    cases credsOk with
    | false => simp at h
    | true =>
      simp only [if_true] at h
      injection h with h2
      subst h2
      refine ⟨rfl, rfl, rfl, rfl, rfl, ⟨s, e, rfl, rfl, rfl⟩, ?_⟩
      intro limit2
      simp [mainRun, hr]

/-- Witness for claim C7: the concrete run with start parsed to 100 and
end parsed to 1000 issues the fixed-shape query whatever the limit. -/
theorem C7_query_shape_witness :
    ∃ q : ListQuery,
      mainRun 0 parseEx fmtEx 250 true "2024-01-01T10:00:00Z" "2024-01-02T10:00:00Z"
        0 0 = .ok q ∧
      q.maxResults = 10 ∧ q.showDeleted = false ∧ q.singleEvents = true ∧
      q.orderBy = "startTime" ∧
      ∀ limit2 : Int,
        mainRun 0 parseEx fmtEx limit2 true "2024-01-01T10:00:00Z"
          "2024-01-02T10:00:00Z" 0 0 = .ok q := by
  refine ⟨{ calendarId := "primary", showDeleted := false, singleEvents := true,
            timeMin := fmtEx 100, timeMax := fmtEx 1000,
            maxResults := 10, orderBy := "startTime" }, rfl, ?_⟩
  have h := C7_query_shape 0 parseEx fmtEx 250 true "2024-01-01T10:00:00Z"
    "2024-01-02T10:00:00Z" 0 0 _ rfl
  exact ⟨h.2.2.2.2.1, h.2.1, h.2.2.1, h.2.2.2.1, h.2.2.2.2.2.2⟩

end Calendar
